import Mathlib

/-!
Verification of the temporal aggregation core of a soil-sensor dashboard.

The source is a React component. Its two relevant pieces are:
 - the CSV row normalizer inside `handleFileUpload` (rows are mapped to
   `SensorData` records, rows with an invalid timestamp are dropped), and
 - the `filteredAndAggregatedData` memo: date/location filtering, automatic
   granularity selection, per-(time bucket, location) averaging, pivoting to
   one flat record per bucket, and a final sort by bucket key.

Embedding conventions:
 - A JS `Date` instant is an integer count of minutes since the Unix epoch
   (`1970-01-01 00:00`). The model fixes the local time zone to UTC, so
   `new Date("yyyy-MM-dd")` (UTC midnight per ECMA-262) and the local-time
   operations of date-fns (`startOfDay`, `startOfWeek`, `startOfHour`,
   `format`) live on one common timeline.
 - A JS `number` is modelled as an exact rational (`ℚ`); `toFixed`
   rounding is half-away-from-zero on the exact value.
 - A JS object used as a string-keyed dictionary is modelled as an
   association list in insertion order (ECMA-262 iterates non-index string
   keys of an object in insertion order).
 - `localeCompare` on the bucket-key alphabet (digits, `-`, space, `:`,
   all keys of one shape per call) is modelled as code-point
   lexicographic comparison.
-/

/-! Calendar arithmetic, shared by the `format` patterns of the source.
`civilFromDays` is the standard civil-from-days conversion of a day count
relative to 1970-01-01 into a proleptic Gregorian (year, month, day). -/

def civilFromDays (z : Int) : Int × Nat × Nat :=
  let z2 := z + 719468
  let era : Int := z2 / 146097
  let doe : Nat := (z2 - era * 146097).toNat
  let yoe : Nat := (doe - doe / 1460 + doe / 36524 - doe / 146096) / 365
  let y : Int := (yoe : Int) + era * 400
  let doy : Nat := doe - (365 * yoe + yoe / 4 - yoe / 100)
  let mp : Nat := (5 * doy + 2) / 153
  let d : Nat := doy - (153 * mp + 2) / 5 + 1
  let m : Nat := if mp < 10 then mp + 3 else mp - 9
  (if m ≤ 2 then y + 1 else y, m, d)

/-- pad2 renders a number to two digits, as the `MM`, `dd` and `HH` tokens of
date-fns `format` do. -/
def pad2 (n : Nat) : String :=
  if n < 10 then "0" ++ toString n else toString n

/-- pad4 renders a year to at least four digits, as the `yyyy` token of
date-fns `format` does. -/
def pad4 (n : Int) : String :=
  if 0 ≤ n ∧ n < 10 then "000" ++ toString n
  else if 0 ≤ n ∧ n < 100 then "00" ++ toString n
  else if 0 ≤ n ∧ n < 1000 then "0" ++ toString n
  else toString n

/-- epochDay is the calendar day an instant falls on (days since 1970-01-01,
floor division because 1440 > 0). -/
def epochDay (t : Int) : Int := t / 1440

/-- hourOfDayOf is the hour-of-day of an instant. -/
def hourOfDayOf (t : Int) : Nat := ((t / 60) % 24).toNat

/-- dayOfWeekOf is the day of week of an instant, with Sunday = 0
(1970-01-01 was a Thursday, hence the +4 offset). -/
def dayOfWeekOf (t : Int) : Int := (epochDay t + 4) % 7

/-- startOfDay models date-fns `startOfDay`: midnight of the day of `t`. -/
def startOfDay (t : Int) : Int := epochDay t * 1440

/-- startOfHour models date-fns `startOfHour`: top of the hour of `t`. -/
def startOfHour (t : Int) : Int := t / 60 * 60

/-- startOfWeek models date-fns `startOfWeek` with its default
`weekStartsOn: 0`: midnight of the Sunday on or before `t`. -/
def startOfWeek (t : Int) : Int := (epochDay t - dayOfWeekOf t) * 1440

/-- formatYMD is date-fns `format(instantOfDay z, "yyyy-MM-dd")` for the day
number `z`. -/
def formatYMD (z : Int) : String :=
  let c := civilFromDays z
  pad4 c.1 ++ "-" ++ pad2 c.2.1 ++ "-" ++ pad2 c.2.2

/-- formatDateKey is date-fns `format(t, "yyyy-MM-dd")` on an instant. -/
def formatDateKey (t : Int) : String := formatYMD (epochDay t)

/-- formatHourKey is date-fns `format(t, "yyyy-MM-dd HH:00")` on an instant
(the `:00` is literal text in the pattern). -/
def formatHourKey (t : Int) : String :=
  formatDateKey t ++ " " ++ pad2 (hourOfDayOf t) ++ ":00"

/-! Code-point lexicographic string comparison, the model of
`a.localeCompare(b) ≤ 0` on bucket keys. -/

/-- lexLeChars compares two character lists lexicographically by code point. -/
def lexLeChars : List Char → List Char → Bool
  | [], _ => true
  | _ :: _, [] => false
  | a :: as, b :: bs =>
    if a.toNat = b.toNat then lexLeChars as bs else decide (a.toNat < b.toNat)

/-- strLe is code-point lexicographic comparison of strings; it models the
`(a, b) => a.date.localeCompare(b.date)` comparator on bucket keys. -/
def strLe (a b : String) : Bool := lexLeChars a.toList b.toList

/-! Data model, from `types.ts`. -/

/-- RawSensorData is one parsed CSV row: seven free-form string fields.
The field names transliterate the Korean CSV headers of `RawSensorData` in
`types.ts`: serial number, mulching site, battery, date-time, soil
moisture, EC, soil temperature. -/
structure RawSensorData where
  serialField : String
  locationField : String
  batteryField : String
  dateField : String
  moistureField : String
  ecField : String
  temperatureField : String
deriving DecidableEq, Repr

/-- ParsedSensorData is the record built for one row inside
`handleFileUpload` before the `isValid` filter; `timestamp = none` models an
Invalid Date produced by `new Date(row[...])`. -/
structure ParsedSensorData where
  serialNumber : String
  location : String
  battery : ℚ
  timestamp : Option Int
  moisture : ℚ
  ec : ℚ
  temperature : ℚ
deriving DecidableEq, Repr

/-- SensorData is a validated reading (the `SensorData` interface of
`types.ts`), its timestamp known to be a valid instant. -/
structure SensorData where
  serialNumber : String
  location : String
  battery : ℚ
  timestamp : Int
  moisture : ℚ
  ec : ℚ
  temperature : ℚ
deriving DecidableEq, Repr

/-! Record validator / normalizer, from `handleFileUpload`.
`new Date(row[...])` and `parseFloat` act on free-form strings, so the
embedding abstracts them as parameters: `parseDate s = none` models an
Invalid Date, `parseNum s = none` models `NaN` (which `|| 0` replaces
with `0`, as does a parsed `0`, so `Option.getD 0` is faithful). -/

/-- parseRow builds the record for one row, mirroring the object literal in
`handleFileUpload`: `|| "N-A-sentinel"` string defaults for the identifier
and location fields, `parseFloat(x) || 0` for the numeric fields. -/
def parseRow (parseDate : String → Option Int) (parseNum : String → Option ℚ)
    (row : RawSensorData) : ParsedSensorData :=
  { serialNumber := if row.serialField = "" then "N/A" else row.serialField
    location := if row.locationField = "" then "Unknown" else row.locationField
    battery := (parseNum row.batteryField).getD 0
    timestamp := parseDate row.dateField
    moisture := (parseNum row.moistureField).getD 0
    ec := (parseNum row.ecField).getD 0
    temperature := (parseNum row.temperatureField).getD 0 }

/-- parsedData is the normalized record set of `handleFileUpload`:
`results.data.map(row => ...).filter(d => isValid(d.timestamp))`. -/
def parsedData (parseDate : String → Option Int) (parseNum : String → Option ℚ)
    (rows : List RawSensorData) : List ParsedSensorData :=
  (rows.map (parseRow parseDate parseNum)).filter (fun d => d.timestamp.isSome)

/-- locations is the derived distinct-location set
`Array.from(new Set(data.map(d => d.location)))`; the engine only ever asks
whether a label is a member, so the dedup order is immaterial here. -/
def locations (data : List SensorData) : List String :=
  (data.map (fun d => d.location)).dedup

/-! Aggregation engine, from the `filteredAndAggregatedData` memo. -/

/-- AggregationMode is the granularity chosen from the day span. -/
inductive AggregationMode where
  | weekly
  | daily
  | hourly
deriving DecidableEq, Repr

/-- aggregationMode models
`daysDiff > 31 ? "weekly" : daysDiff > 7 ? "daily" : "hourly"`. -/
def aggregationMode (daysDiff : Int) : AggregationMode :=
  if daysDiff > 31 then .weekly else if daysDiff > 7 then .daily else .hourly

/-- isWithinInterval models date-fns `isWithinInterval(t, {start, end})` as
the library implements it since v3: the two endpoint instants are sorted
first, then membership in the closed interval between them is tested, so an
interval given in reverse behaves as the normalized one. (v2 instead threw
a `RangeError` on a reversed interval; the import set of this component
dates it to the v3+ era.) -/
def isWithinInterval (t startT endT : Int) : Bool :=
  decide (min startT endT ≤ t) && decide (t ≤ max startT endT)

/-- dateFilteredOf is the `dateFiltered` list: readings inside the date
interval whose location passes the filter
(`selectedLocations.length === 0 || selectedLocations.includes(d.location)`). -/
def dateFilteredOf (data : List SensorData) (startT endT : Int)
    (selectedLocations : List String) : List SensorData :=
  data.filter (fun d =>
    isWithinInterval d.timestamp startT endT &&
      (selectedLocations.isEmpty || selectedLocations.contains d.location))

/-- timeKey is the bucket key of a reading under the active granularity:
`format(startOfWeek(ts), "yyyy-MM-dd")`, `format(startOfDay(ts),
"yyyy-MM-dd")` or `format(startOfHour(ts), "yyyy-MM-dd HH:00")`. -/
def timeKey (mode : AggregationMode) (t : Int) : String :=
  match mode with
  | .weekly => formatDateKey (startOfWeek t)
  | .daily => formatDateKey (startOfDay t)
  | .hourly => formatHourKey (startOfHour t)

/-- Stats is one `{ moisture, ec, temperature, count }` accumulator of
`timeLocationGroups[timeKey][location]`. -/
structure Stats where
  moisture : ℚ
  ec : ℚ
  temperature : ℚ
  count : Nat
deriving DecidableEq, Repr

/-- initStats is the freshly created accumulator
`{ moisture: 0, ec: 0, temperature: 0, count: 0 }`. -/
def initStats : Stats := ⟨0, 0, 0, 0⟩

/-- addReading performs the four `+=` updates of one loop iteration. -/
def addReading (st : Stats) (d : SensorData) : Stats :=
  { moisture := st.moisture + d.moisture
    ec := st.ec + d.ec
    temperature := st.temperature + d.temperature
    count := st.count + 1 }

/-- updateAssoc adds reading `d` to the accumulator at key `loc` of an inner
location dictionary, creating the entry (at the end, as JS property insertion
does) when absent. -/
def updateAssoc (m : List (String × Stats)) (loc : String) (d : SensorData) :
    List (String × Stats) :=
  match m with
  | [] => [(loc, addReading initStats d)]
  | (k, v) :: rest =>
    if k = loc then (k, addReading v d) :: rest
    else (k, v) :: updateAssoc rest loc d

/-- updateGroups adds reading `d` under time key `tk` of the outer
dictionary, creating the bucket entry when absent. -/
def updateGroups (g : List (String × List (String × Stats))) (tk : String)
    (d : SensorData) : List (String × List (String × Stats)) :=
  match g with
  | [] => [(tk, updateAssoc [] d.location d)]
  | (k, locs) :: rest =>
    if k = tk then (k, updateAssoc locs d.location d) :: rest
    else (k, locs) :: updateGroups rest tk d

/-- buildGroups is the `dateFiltered.forEach(...)` accumulation into
`timeLocationGroups`, an insertion-ordered dictionary of dictionaries. -/
def buildGroups (mode : AggregationMode) (ds : List SensorData) :
    List (String × List (String × Stats)) :=
  ds.foldl (fun g d => updateGroups g (timeKey mode d.timestamp) d) []

/-- jsRound is ECMA-262 `toFixed` rounding of `q` to an integer: round half
away from zero (negative numbers are negated, rounded, negated back). -/
def jsRound (q : ℚ) : Int :=
  if q < 0 then -(⌊-q + 1 / 2⌋) else ⌊q + 1 / 2⌋

/-- round2 models `Number(x.toFixed(2))`: the value rounded to two decimal
places. -/
def round2 (q : ℚ) : ℚ := (jsRound (q * 100) : ℚ) / 100

/-- sliceMMDD reads the `MM/dd` display form off a bucket key (every key
starts `yyyy-MM-dd`), the effect of `format(new Date(timeKey), "MM/dd")`. -/
def sliceMMDD (key : String) : String :=
  ((key.toList.drop 5).take 2).asString ++ "/" ++ ((key.toList.drop 8).take 2).asString

/-- sliceHM reads the `HH:mm` display form off an hourly bucket key
`yyyy-MM-dd HH:00`, the effect of `format(new Date(timeKey), "HH:mm")`. -/
def sliceHM (key : String) : String := ((key.toList.drop 11).take 5).asString

/-- displayDateOf is the human label derived from the bucket key per mode:
`MM/dd (Week)`, `MM/dd`, or `MM/dd HH:mm`. -/
def displayDateOf (mode : AggregationMode) (key : String) : String :=
  match mode with
  | .weekly => sliceMMDD key ++ " (Week)"
  | .daily => sliceMMDD key
  | .hourly => sliceMMDD key ++ " " ++ sliceHM key

/-- BucketRow is one element of the final flattened sequence: the `date`
key, the display label, and the `location_metric` entries in insertion
order. -/
structure BucketRow where
  date : String
  displayDate : String
  values : List (String × ℚ)
deriving DecidableEq, Repr

/-- pivotRow flattens one bucket: for each location of the bucket, in
insertion order, three `location_metric` entries hold the rounded mean
`Number((sum / count).toFixed(2))` per metric. -/
def pivotRow (mode : AggregationMode) (tk : String)
    (locs : List (String × Stats)) : BucketRow :=
  { date := tk
    displayDate := displayDateOf mode tk
    values := locs.flatMap (fun p =>
      [(p.1 ++ "_moisture", round2 (p.2.moisture / (p.2.count : ℚ))),
       (p.1 ++ "_ec", round2 (p.2.ec / (p.2.count : ℚ))),
       (p.1 ++ "_temperature", round2 (p.2.temperature / (p.2.count : ℚ)))]) }

/-- filteredAndAggregatedData is the aggregation engine. `startDate` and
`endDate` model the `yyyy-MM-dd` strings as epoch-day numbers (`none` is the
unset empty string; `new Date("yyyy-MM-dd")` is the UTC midnight of that
day, `differenceInDays` of two midnights is their exact day difference).
Filter, group, pivot, then sort by bucket key. -/
def filteredAndAggregatedData (data : List SensorData)
    (startDate endDate : Option Int) (selectedLocations : List String) :
    List BucketRow :=
  match startDate, endDate with
  | some startDay, some endDay =>
    if data.length = 0 then []
    else
      let startT := startDay * 1440
      let endT := endDay * 1440
      let daysDiff := endDay - startDay
      let mode := aggregationMode daysDiff
      let dateFiltered := dateFilteredOf data startT endT selectedLocations
      ((buildGroups mode dateFiltered).map (fun g => pivotRow mode g.1 g.2)).mergeSort
        (fun a b => strLe a.date b.date)
  | _, _ => []

/-! Dictionary lookup machinery for the grouping step. -/

/-- lookupA finds the value stored under a string key of an association
list, the model of JS property access. -/
def lookupA {α : Type} : List (String × α) → String → Option α
  | [], _ => none
  | (k, v) :: rest, key => if k = key then some v else lookupA rest key

/-- lookup2 is two-level lookup into `timeLocationGroups`: first the time
key, then the location. -/
def lookup2 (g : List (String × List (String × Stats))) (tk loc : String) :
    Option Stats :=
  (lookupA g tk).bind (fun locs => lookupA locs loc)

/-- groupReadings is the list of surviving readings that land in the
`(bucketKey, location)` group, in input order. -/
def groupReadings (mode : AggregationMode) (ds : List SensorData)
    (tk loc : String) : List SensorData :=
  ds.filter (fun d => decide (timeKey mode d.timestamp = tk) && decide (d.location = loc))

/-- GroupsWF states the dictionary invariant: outer keys are duplicate free
and so are the keys of every inner location dictionary. -/
def GroupsWF (g : List (String × List (String × Stats))) : Prop :=
  (g.map Prod.fst).Nodup ∧ ∀ p ∈ g, (p.2.map Prod.fst).Nodup


/-- isoStartOfWeekDay follows the wording of the spec for the weekly anchor:
the day number of the ISO week start (the Monday) of the day containing `t`.
It exists to be compared against the anchoring the code computes. -/
def isoStartOfWeekDay (t : Int) : Int := epochDay t - (epochDay t + 3) % 7

/-! Concrete data used to instantiate the theorems. Day 19723 is
2024-01-01 (a Monday), day 19692 is 2023-12-01, day 19737 is 2024-01-15. -/

/-- e2eReadingA1 is the reading at location `A`, 2024-01-01 01:00 local,
moisture 10, of the end-to-end scenario. -/
def e2eReadingA1 : SensorData := ⟨"S1", "A", 0, 19723 * 1440 + 60, 10, 0, 0⟩

/-- e2eReadingA2 is the reading at location `A`, 2024-01-01 02:00 local,
moisture 20, of the end-to-end scenario. -/
def e2eReadingA2 : SensorData := ⟨"S1", "A", 0, 19723 * 1440 + 120, 20, 0, 0⟩

/-- e2eReadings is the two-reading data set of the end-to-end scenario. -/
def e2eReadings : List SensorData := [e2eReadingA1, e2eReadingA2]

/-- mondayReading is a reading taken exactly at 2024-01-01 00:00, a Monday,
with all metrics zero. -/
def mondayReading : SensorData := ⟨"S1", "A", 0, 19723 * 1440, 0, 0, 0⟩

/-- meanR1 is a reading at location `A`, 2024-01-01 01:00, moisture 10. -/
def meanR1 : SensorData := ⟨"S1", "A", 0, 19723 * 1440 + 60, 10, 0, 0⟩

/-- meanR2 is a reading at location `A`, 2024-01-01 01:10, moisture 20. -/
def meanR2 : SensorData := ⟨"S1", "A", 0, 19723 * 1440 + 70, 20, 0, 0⟩

/-- meanR3 is a reading at location `A`, 2024-01-01 01:20, moisture 30. -/
def meanR3 : SensorData := ⟨"S1", "A", 0, 19723 * 1440 + 80, 30, 0, 0⟩

/-- meanReadings holds three readings at one location inside one hour with
moisture 10, 20 and 30. -/
def meanReadings : List SensorData := [meanR1, meanR2, meanR3]

/-- meanStats is the accumulator the grouping loop builds for the one
`(bucket, location)` group of `meanReadings`. -/
def meanStats : Stats :=
  addReading (addReading (addReading initStats meanR1) meanR2) meanR3

/-- meanRow is the single output row the engine produces on `meanReadings`
with range 2024-01-01 to 2024-01-02 and filter `A`. -/
def meanRow : BucketRow :=
  pivotRow AggregationMode.hourly
    (timeKey AggregationMode.hourly (19723 * 1440 + 60)) [("A", meanStats)]

/-- parseDateW is a concrete date parser accepting exactly one timestamp
string, used to instantiate the normalizer theorems. -/
def parseDateW : String → Option Int :=
  fun s => if s = "2024-01-01 01:00" then some (19723 * 1440 + 60) else none

/-- parseNumW is a concrete number parser accepting exactly the string
`10`, used to instantiate the normalizer theorems. -/
def parseNumW : String → Option ℚ :=
  fun s => if s = "10" then some 10 else none

/-- rowGood is a raw row whose timestamp parses under `parseDateW` but
whose battery, EC and temperature fields do not parse under `parseNumW`. -/
def rowGood : RawSensorData :=
  ⟨"S1", "A", "abc", "2024-01-01 01:00", "10", "abc", "abc"⟩

/-- rowBad is a raw row whose timestamp does not parse under
`parseDateW`. -/
def rowBad : RawSensorData := ⟨"S2", "B", "10", "zzz", "10", "10", "10"⟩

/-! Order facts about the bucket-key comparator. -/

theorem lexLeChars_total (as bs : List Char) :
    lexLeChars as bs = true ∨ lexLeChars bs as = true := by
  induction as generalizing bs with
  | nil => left; rfl
  | cons a as ih =>
    cases bs with
    | nil => right; rfl
    | cons b bs =>
      by_cases h : a.toNat = b.toNat
      · have h' : b.toNat = a.toNat := h.symm
        rw [lexLeChars, lexLeChars, if_pos h, if_pos h']
        exact ih bs
      · have h' : ¬ b.toNat = a.toNat := fun e => h e.symm
        rw [lexLeChars, lexLeChars, if_neg h, if_neg h', decide_eq_true_eq,
          decide_eq_true_eq]
        omega

theorem lexLeChars_trans (as bs cs : List Char) (h1 : lexLeChars as bs = true)
    (h2 : lexLeChars bs cs = true) : lexLeChars as cs = true := by
  induction as generalizing bs cs with
  | nil => rfl
  | cons a as ih =>
    cases bs with
    | nil => simp [lexLeChars] at h1
    | cons b bs =>
      cases cs with
      | nil => simp [lexLeChars] at h2
      | cons c cs =>
        by_cases hab : a.toNat = b.toNat <;> by_cases hbc : b.toNat = c.toNat
        · rw [lexLeChars, if_pos hab] at h1
          rw [lexLeChars, if_pos hbc] at h2
          rw [lexLeChars, if_pos (hab.trans hbc)]
          exact ih bs cs h1 h2
        · rw [lexLeChars, if_neg hbc, decide_eq_true_eq] at h2
          have hac : ¬ a.toNat = c.toNat := by omega
          rw [lexLeChars, if_neg hac, decide_eq_true_eq]
          omega
        · rw [lexLeChars, if_neg hab, decide_eq_true_eq] at h1
          have hac : ¬ a.toNat = c.toNat := by omega
          rw [lexLeChars, if_neg hac, decide_eq_true_eq]
          omega
        · rw [lexLeChars, if_neg hab, decide_eq_true_eq] at h1
          rw [lexLeChars, if_neg hbc, decide_eq_true_eq] at h2
          have hac : ¬ a.toNat = c.toNat := by omega
          rw [lexLeChars, if_neg hac, decide_eq_true_eq]
          omega

theorem strLe_total (a b : String) : strLe a b = true ∨ strLe b a = true :=
  lexLeChars_total a.toList b.toList

theorem strLe_trans (a b c : String) (h1 : strLe a b = true)
    (h2 : strLe b c = true) : strLe a c = true :=
  lexLeChars_trans a.toList b.toList c.toList h1 h2

theorem lookupA_updateAssoc (m : List (String × Stats)) (loc : String)
    (d : SensorData) (key : String) :
    lookupA (updateAssoc m loc d) key =
      if key = loc then some (addReading ((lookupA m key).getD initStats) d)
      else lookupA m key := by
  induction m with
  | nil =>
    by_cases h : key = loc
    · subst h
      simp [updateAssoc, lookupA]
    · simp [updateAssoc, lookupA, h, Ne.symm h]
  | cons p rest ih =>
    obtain ⟨k, v⟩ := p
    by_cases hk : k = loc
    · subst hk
      by_cases h : key = k
      · subst h
        simp [updateAssoc, lookupA]
      · simp [updateAssoc, lookupA, h, Ne.symm h]
    · by_cases h : k = key
      · subst h
        simp [updateAssoc, lookupA, hk, Ne.symm hk]
      · simp [updateAssoc, lookupA, hk, h, ih]

theorem lookup2_updateGroups (g : List (String × List (String × Stats)))
    (tk : String) (d : SensorData) (tk' loc' : String) :
    lookup2 (updateGroups g tk d) tk' loc' =
      if tk' = tk ∧ loc' = d.location then
        some (addReading ((lookup2 g tk' loc').getD initStats) d)
      else lookup2 g tk' loc' := by
  induction g with
  | nil =>
    by_cases h1 : tk' = tk
    · subst h1
      by_cases h2 : loc' = d.location
      · subst h2
        simp [updateGroups, lookup2, lookupA, lookupA_updateAssoc]
      · simp [updateGroups, lookup2, lookupA, lookupA_updateAssoc, h2, Ne.symm h2]
    · simp [updateGroups, lookup2, lookupA, h1, Ne.symm h1]
  | cons p rest ih =>
    obtain ⟨k, locs⟩ := p
    by_cases hk : k = tk
    · subst hk
      by_cases h1 : tk' = k
      · subst h1
        by_cases h2 : loc' = d.location
        · subst h2
          simp [updateGroups, lookup2, lookupA, lookupA_updateAssoc]
        · simp [updateGroups, lookup2, lookupA, lookupA_updateAssoc, h2]
      · simp [updateGroups, lookup2, lookupA, h1, Ne.symm h1]
    · by_cases h1 : k = tk'
      · subst h1
        simp [updateGroups, lookup2, lookupA, hk, Ne.symm hk]
      · have hu : updateGroups ((k, locs) :: rest) tk d =
            (k, locs) :: updateGroups rest tk d := by
          simp [updateGroups, hk]
        have l1 : lookup2 ((k, locs) :: updateGroups rest tk d) tk' loc' =
            lookup2 (updateGroups rest tk d) tk' loc' := by
          simp [lookup2, lookupA, h1]
        have l2 : lookup2 ((k, locs) :: rest) tk' loc' =
            lookup2 rest tk' loc' := by
          simp [lookup2, lookupA, h1]
        rw [hu, l1, l2, ih]

/-! Characterization of the grouping fold: the accumulator found under
`(timeKey, location)` is exactly the fold of that group of readings. -/

theorem lookup2_foldl_getD (mode : AggregationMode) (ds : List SensorData)
    (g : List (String × List (String × Stats))) (tk loc : String) :
    (lookup2 (ds.foldl (fun g d => updateGroups g (timeKey mode d.timestamp) d) g)
        tk loc).getD initStats =
      (groupReadings mode ds tk loc).foldl addReading
        ((lookup2 g tk loc).getD initStats) := by
  induction ds generalizing g with
  | nil => simp [groupReadings]
  | cons d rest ih =>
    simp only [List.foldl_cons]
    rw [ih]
    by_cases hd : timeKey mode d.timestamp = tk ∧ d.location = loc
    · have hg : groupReadings mode (d :: rest) tk loc =
          d :: groupReadings mode rest tk loc := by
        simp [groupReadings, List.filter_cons, hd.1, hd.2]
      rw [hg, lookup2_updateGroups, if_pos ⟨hd.1.symm, hd.2.symm⟩, List.foldl_cons]
      simp
    · have hp : (decide (timeKey mode d.timestamp = tk) &&
          decide (d.location = loc)) = false := by
        rcases not_and_or.mp hd with h | h <;> simp [h]
      have hg : groupReadings mode (d :: rest) tk loc =
          groupReadings mode rest tk loc := by
        simp [groupReadings, List.filter_cons, hp]
      rw [hg, lookup2_updateGroups, if_neg (fun e => hd ⟨e.1.symm, e.2.symm⟩)]

theorem lookup2_foldl_isSome (mode : AggregationMode) (ds : List SensorData)
    (g : List (String × List (String × Stats))) (tk loc : String) :
    (lookup2 (ds.foldl (fun g d => updateGroups g (timeKey mode d.timestamp) d) g)
        tk loc).isSome =
      ((lookup2 g tk loc).isSome || !(groupReadings mode ds tk loc).isEmpty) := by
  induction ds generalizing g with
  | nil => simp [groupReadings]
  | cons d rest ih =>
    simp only [List.foldl_cons]
    rw [ih]
    by_cases hd : timeKey mode d.timestamp = tk ∧ d.location = loc
    · have hg : groupReadings mode (d :: rest) tk loc =
          d :: groupReadings mode rest tk loc := by
        simp [groupReadings, List.filter_cons, hd.1, hd.2]
      rw [hg, lookup2_updateGroups, if_pos ⟨hd.1.symm, hd.2.symm⟩]
      simp
    · have hp : (decide (timeKey mode d.timestamp = tk) &&
          decide (d.location = loc)) = false := by
        rcases not_and_or.mp hd with h | h <;> simp [h]
      have hg : groupReadings mode (d :: rest) tk loc =
          groupReadings mode rest tk loc := by
        simp [groupReadings, List.filter_cons, hp]
      rw [hg, lookup2_updateGroups, if_neg (fun e => hd ⟨e.1.symm, e.2.symm⟩)]

theorem lookup2_buildGroups_getD (mode : AggregationMode) (ds : List SensorData)
    (tk loc : String) :
    (lookup2 (buildGroups mode ds) tk loc).getD initStats =
      (groupReadings mode ds tk loc).foldl addReading initStats := by
  unfold buildGroups
  rw [lookup2_foldl_getD]
  simp [lookup2, lookupA]

theorem lookup2_buildGroups_isSome (mode : AggregationMode) (ds : List SensorData)
    (tk loc : String) :
    (lookup2 (buildGroups mode ds) tk loc).isSome =
      !(groupReadings mode ds tk loc).isEmpty := by
  unfold buildGroups
  rw [lookup2_foldl_isSome]
  simp [lookup2, lookupA]

theorem foldl_addReading_eq (l : List SensorData) (st : Stats) :
    l.foldl addReading st =
      ⟨st.moisture + (l.map SensorData.moisture).sum,
       st.ec + (l.map SensorData.ec).sum,
       st.temperature + (l.map SensorData.temperature).sum,
       st.count + l.length⟩ := by
  induction l generalizing st with
  | nil => simp
  | cons d rest ih =>
    simp only [List.foldl_cons, ih, addReading, List.map_cons, List.sum_cons,
      List.length_cons, Stats.mk.injEq]
    refine ⟨by ring, by ring, by ring, by omega⟩

theorem lookup2_buildGroups_eq_some (mode : AggregationMode)
    (ds : List SensorData) (tk loc : String) (st : Stats)
    (h : lookup2 (buildGroups mode ds) tk loc = some st) :
    groupReadings mode ds tk loc ≠ [] ∧
    st.moisture = ((groupReadings mode ds tk loc).map SensorData.moisture).sum ∧
    st.ec = ((groupReadings mode ds tk loc).map SensorData.ec).sum ∧
    st.temperature = ((groupReadings mode ds tk loc).map SensorData.temperature).sum ∧
    st.count = (groupReadings mode ds tk loc).length := by
  have hs := lookup2_buildGroups_isSome mode ds tk loc
  rw [h] at hs
  have hg := lookup2_buildGroups_getD mode ds tk loc
  rw [h, foldl_addReading_eq] at hg
  simp only [Option.getD_some] at hg
  subst hg
  refine ⟨?_, by simp [initStats], by simp [initStats], by simp [initStats],
    by simp [initStats]⟩
  intro e
  rw [e] at hs
  simp at hs

/-! Keys of the dictionaries stay duplicate free: a JS object cannot hold a
key twice, and the association-list model keeps that invariant. -/

theorem keys_updateAssoc (m : List (String × Stats)) (loc : String)
    (d : SensorData) :
    (updateAssoc m loc d).map Prod.fst =
      if loc ∈ m.map Prod.fst then m.map Prod.fst
      else m.map Prod.fst ++ [loc] := by
  induction m with
  | nil => simp [updateAssoc]
  | cons p rest ih =>
    obtain ⟨k, v⟩ := p
    by_cases hk : k = loc
    · subst hk
      simp [updateAssoc]
    · by_cases hm : loc ∈ rest.map Prod.fst <;>
        simp [updateAssoc, hk, Ne.symm hk, ih, hm]

theorem keys_updateGroups (g : List (String × List (String × Stats)))
    (tk : String) (d : SensorData) :
    (updateGroups g tk d).map Prod.fst =
      if tk ∈ g.map Prod.fst then g.map Prod.fst
      else g.map Prod.fst ++ [tk] := by
  induction g with
  | nil => simp [updateGroups]
  | cons p rest ih =>
    obtain ⟨k, locs⟩ := p
    by_cases hk : k = tk
    · subst hk
      simp [updateGroups]
    · by_cases hm : tk ∈ rest.map Prod.fst <;>
        simp [updateGroups, hk, Ne.symm hk, ih, hm]

theorem nodup_keys_updateAssoc (m : List (String × Stats)) (loc : String)
    (d : SensorData) (h : (m.map Prod.fst).Nodup) :
    ((updateAssoc m loc d).map Prod.fst).Nodup := by
  rw [keys_updateAssoc]
  by_cases hm : loc ∈ m.map Prod.fst
  · simpa [hm] using h
  · simp [hm, List.nodup_append, h]

theorem groupsWF_updateGroups (g : List (String × List (String × Stats)))
    (tk : String) (d : SensorData) (h : GroupsWF g) :
    GroupsWF (updateGroups g tk d) := by
  constructor
  · rw [keys_updateGroups]
    by_cases hm : tk ∈ g.map Prod.fst
    · simpa [hm] using h.1
    · simp [hm, List.nodup_append, h.1]
  · have hin := h.2
    clear h
    induction g with
    | nil =>
      intro p hp
      have he : p = (tk, updateAssoc [] d.location d) := by
        simpa [updateGroups] using hp
      subst he
      simp [updateAssoc]
    | cons q rest ih =>
      obtain ⟨k, locs⟩ := q
      intro p hp
      by_cases hk : k = tk
      · subst hk
        have hp' : p = (k, updateAssoc locs d.location d) ∨ p ∈ rest := by
          simpa [updateGroups] using hp
        rcases hp' with he | ht
        · subst he
          exact nodup_keys_updateAssoc locs d.location d
            (hin (k, locs) (List.mem_cons_self _ _))
        · exact hin p (List.mem_cons_of_mem _ ht)
      · have hp' : p = (k, locs) ∨ p ∈ updateGroups rest tk d := by
          simpa [updateGroups, hk] using hp
        rcases hp' with he | ht
        · subst he
          exact hin (k, locs) (List.mem_cons_self _ _)
        · exact ih (fun q hq => hin q (List.mem_cons_of_mem _ hq)) p ht

theorem groupsWF_foldl (mode : AggregationMode) (ds : List SensorData)
    (g : List (String × List (String × Stats))) (h : GroupsWF g) :
    GroupsWF (ds.foldl (fun g d => updateGroups g (timeKey mode d.timestamp) d) g) := by
  induction ds generalizing g with
  | nil => exact h
  | cons d rest ih =>
    simp only [List.foldl_cons]
    exact ih _ (groupsWF_updateGroups g _ d h)

theorem groupsWF_buildGroups (mode : AggregationMode) (ds : List SensorData) :
    GroupsWF (buildGroups mode ds) :=
  groupsWF_foldl mode ds [] ⟨List.nodup_nil, by simp⟩

theorem lookupA_eq_of_mem {α : Type} (l : List (String × α)) (k : String)
    (v : α) (hnd : (l.map Prod.fst).Nodup) (hm : (k, v) ∈ l) :
    lookupA l k = some v := by
  induction l with
  | nil => simp at hm
  | cons p rest ih =>
    obtain ⟨k', v'⟩ := p
    rcases List.mem_cons.mp hm with he | ht
    · have e1 : k = k' := congrArg Prod.fst he
      have e2 : v = v' := congrArg Prod.snd he
      subst e1
      subst e2
      simp [lookupA]
    · have hk : k' ≠ k := by
        intro e
        subst e
        exact (List.nodup_cons.mp hnd).1 (List.mem_map.mpr ⟨(k', v), ht, rfl⟩)
      simp only [lookupA, if_neg hk]
      exact ih (List.nodup_cons.mp hnd).2 ht

theorem lookup2_of_mem_buildGroups (mode : AggregationMode)
    (ds : List SensorData) (tk : String) (locs : List (String × Stats))
    (loc : String) (st : Stats) (h1 : (tk, locs) ∈ buildGroups mode ds)
    (h2 : (loc, st) ∈ locs) :
    lookup2 (buildGroups mode ds) tk loc = some st := by
  have wf := groupsWF_buildGroups mode ds
  have o := lookupA_eq_of_mem _ tk locs wf.1 h1
  have i := lookupA_eq_of_mem _ loc st (wf.2 (tk, locs) h1) h2
  simp [lookup2, o, i]

/-- Every row of the engine output is the pivot of one bucket entry of
`timeLocationGroups`, keyed by the row's own `date`. -/
theorem mem_output_decompose (data : List SensorData) (startDay endDay : Int)
    (sel : List String) (row : BucketRow)
    (h : row ∈ filteredAndAggregatedData data (some startDay) (some endDay) sel) :
    ∃ locs,
      (row.date, locs) ∈
        buildGroups (aggregationMode (endDay - startDay))
          (dateFilteredOf data (startDay * 1440) (endDay * 1440) sel) ∧
      row = pivotRow (aggregationMode (endDay - startDay)) row.date locs := by
  unfold filteredAndAggregatedData at h
  by_cases hd : data.length = 0
  · simp [hd] at h
  · simp only [hd, if_false, List.mem_mergeSort, List.mem_map] at h
    obtain ⟨g, hg, he⟩ := h
    refine ⟨g.2, ?_, ?_⟩
    · have : row.date = g.1 := by rw [← he]; rfl
      rw [this]
      exact hg
    · have : row.date = g.1 := by rw [← he]; rfl
      rw [this, ← he]

/-! Claim theorems. -/

/-- C2: the granularity is a function of the whole-day span `D` with strict
boundaries: weekly iff `D > 31`, daily iff `7 < D ≤ 31`, hourly iff
`D ≤ 7`; in particular `D = 7` is hourly, `D = 8` and `D = 31` are daily,
`D = 32` is weekly. `aggregationMode` is applied by the engine to
`differenceInDays(end, start)`, the exact day difference of the two
midnights. -/
theorem C2_granularity :
    (∀ D : Int,
      (aggregationMode D = .weekly ↔ 31 < D) ∧
      (aggregationMode D = .daily ↔ 7 < D ∧ D ≤ 31) ∧
      (aggregationMode D = .hourly ↔ D ≤ 7)) ∧
    aggregationMode 7 = .hourly ∧ aggregationMode 8 = .daily ∧
    aggregationMode 31 = .daily ∧ aggregationMode 32 = .weekly := by
  refine ⟨fun D => ?_, by decide, by decide, by decide, by decide⟩
  unfold aggregationMode
  split_ifs with h1 h2 <;> refine ⟨?_, ?_, ?_⟩ <;> simp <;> omega

/-- C2 witness: the four boundary spans, instantiated from the theorem. -/
theorem C2_granularity_witness :
    (aggregationMode 7 = .hourly ↔ (7 : Int) ≤ 7) ∧ aggregationMode 32 = .weekly :=
  ⟨(C2_granularity.1 7).2.2, C2_granularity.2.2.2.2⟩

/-- C6: a raw row whose timestamp field does not parse to a valid instant
yields no normalized record: the normalized set equals the per-row records
of exactly the rows whose timestamp parses, and every normalized record
carries a valid timestamp. -/
theorem C6_row_drop (parseDate : String → Option Int)
    (parseNum : String → Option ℚ) (rows : List RawSensorData) :
    (∀ d ∈ parsedData parseDate parseNum rows, d.timestamp.isSome) ∧
    parsedData parseDate parseNum rows =
      (rows.filter (fun r => (parseDate r.dateField).isSome)).map
        (parseRow parseDate parseNum) := by
  constructor
  · intro d hd
    exact (List.mem_filter.mp hd).2
  · unfold parsedData
    rw [List.filter_map]
    exact congrArg _ (List.filter_congr (fun r _ => rfl))

/-- C6 witness: with the concrete parsers, `rowBad` is dropped and the one
surviving record has a valid timestamp. -/
theorem C6_row_drop_witness :
    (∀ d ∈ parsedData parseDateW parseNumW [rowGood, rowBad], d.timestamp.isSome) ∧
    parsedData parseDateW parseNumW [rowGood, rowBad] =
      ([rowGood, rowBad].filter (fun r => (parseDateW r.dateField).isSome)).map
        (parseRow parseDateW parseNumW) :=
  C6_row_drop parseDateW parseNumW [rowGood, rowBad]

/-- C7: a numeric-field parse failure never drops a row: the parsed record
substitutes `0` for each unparseable battery, moisture, EC or temperature
field, and when the timestamp of a row of the input parses the record built
from it is retained in the normalized set. -/
theorem C7_numeric_fallback (parseDate : String → Option Int)
    (parseNum : String → Option ℚ) (row : RawSensorData)
    (rows : List RawSensorData) :
    (parseNum row.batteryField = none →
      (parseRow parseDate parseNum row).battery = 0) ∧
    (parseNum row.moistureField = none →
      (parseRow parseDate parseNum row).moisture = 0) ∧
    (parseNum row.ecField = none →
      (parseRow parseDate parseNum row).ec = 0) ∧
    (parseNum row.temperatureField = none →
      (parseRow parseDate parseNum row).temperature = 0) ∧
    (row ∈ rows → (parseDate row.dateField).isSome →
      parseRow parseDate parseNum row ∈ parsedData parseDate parseNum rows) := by
  refine ⟨fun h => ?_, fun h => ?_, fun h => ?_, fun h => ?_, fun hm hv => ?_⟩
  · simp [parseRow, h]
  · simp [parseRow, h]
  · simp [parseRow, h]
  · simp [parseRow, h]
  · unfold parsedData
    rw [List.mem_filter]
    exact ⟨List.mem_map_of_mem _ hm, hv⟩

/-- C7 witness: `rowGood` has an unparseable battery, EC and temperature
field but a parsing timestamp; its record is built with those fields `0`
and retained. -/
theorem C7_numeric_fallback_witness :
    (parseRow parseDateW parseNumW rowGood).battery = 0 ∧
    (parseRow parseDateW parseNumW rowGood).ec = 0 ∧
    (parseRow parseDateW parseNumW rowGood).temperature = 0 ∧
    parseRow parseDateW parseNumW rowGood ∈
      parsedData parseDateW parseNumW [rowGood, rowBad] := by
  have h := C7_numeric_fallback parseDateW parseNumW rowGood [rowGood, rowBad]
  exact ⟨h.1 (by decide), h.2.2.1 (by decide), h.2.2.2.1 (by decide),
    h.2.2.2.2 (by decide) (by decide)⟩

/-- C4 counterexample: with the range inverted (start 2024-01-02, end
2024-01-01) the engine does not return an empty sequence: the reading at
2024-01-01 00:00 lies in the normalized interval that date-fns v3+
evaluates, and is emitted as an hourly bucket. -/
theorem C4_counterexample :
    (filteredAndAggregatedData [mondayReading] (some 19724) (some 19723) []).map
        (fun r => r.date) = ["2024-01-01 00:00"] ∧
    filteredAndAggregatedData [mondayReading] (some 19724) (some 19723) [] ≠ [] := by
  have h1 : (filteredAndAggregatedData [mondayReading] (some 19724)
      (some 19723) []).map (fun r => r.date) = ["2024-01-01 00:00"] := by
    unfold filteredAndAggregatedData
    by_cases hd : ([mondayReading] : List SensorData).length = 0
    · exact absurd hd (by decide)
    · simp only [hd, if_false]
      have hf : dateFilteredOf [mondayReading] (19724 * 1440) (19723 * 1440) [] =
          [mondayReading] := by decide
      rw [hf]
      have hm : aggregationMode (19723 - 19724) = AggregationMode.hourly := by
        decide
      rw [hm]
      have hb : buildGroups AggregationMode.hourly [mondayReading] =
          [(timeKey AggregationMode.hourly mondayReading.timestamp,
            [(mondayReading.location, addReading initStats mondayReading)])] := rfl
      rw [hb]
      simp only [List.map_cons, List.map_nil, List.mergeSort_singleton, pivotRow]
      decide
  exact ⟨h1, fun he => by simp [he] at h1⟩

/-- C4 amended: a missing start or end date, or a non-empty filter naming
only locations absent from the data, yields an empty result; an inverted
date range raises no error but is not empty either: it selects exactly the
readings of the normalized range (date-fns v3+ sorts the interval
endpoints) and, its day span being negative, is bucketed hourly. (The
embedding is a total function, so no exception can be raised on any
input.) -/
theorem C4_degenerate (data : List SensorData) (sel : List String) :
    (∀ e, filteredAndAggregatedData data none e sel = []) ∧
    (∀ s, filteredAndAggregatedData data s none sel = []) ∧
    (∀ s e : Int, sel ≠ [] → (∀ d ∈ data, d.location ∉ sel) →
      filteredAndAggregatedData data (some s) (some e) sel = []) ∧
    (∀ s e : Int, e < s →
      dateFilteredOf data (s * 1440) (e * 1440) sel =
        dateFilteredOf data (e * 1440) (s * 1440) sel ∧
      aggregationMode (e - s) = AggregationMode.hourly) := by
  refine ⟨fun e => by cases e <;> rfl, fun s => by cases s <;> rfl,
    fun s e hsel habs => ?_, fun s e hse => ⟨?_, ?_⟩⟩
  · unfold filteredAndAggregatedData
    by_cases hd : data.length = 0
    · simp [hd]
    · simp only [hd, if_false]
      have hf : dateFilteredOf data (s * 1440) (e * 1440) sel = [] := by
        rw [dateFilteredOf, List.filter_eq_nil_iff]
        intro d hd2
        simp only [Bool.and_eq_true, Bool.or_eq_true, List.isEmpty_iff,
          List.elem_iff, not_and, not_or]
        intro _
        exact ⟨hsel, habs d hd2⟩
      rw [hf]
      simp [buildGroups]
  · unfold dateFilteredOf
    apply List.filter_congr
    intro d _
    simp [isWithinInterval, min_comm, max_comm]
  · have h1 : ¬(e - s > 31) := by omega
    have h2 : ¬(e - s > 7) := by omega
    simp [aggregationMode, h1, h2]

/-- C4 witness: a filter naming only the absent location `B` returns the
empty sequence, and the inverted range 2024-01-02 to 2024-01-01 selects the
same readings as the ordered range and is bucketed hourly. -/
theorem C4_degenerate_witness :
    filteredAndAggregatedData [mondayReading] (some 19723) (some 19724) ["B"] = [] ∧
    dateFilteredOf [mondayReading] (19724 * 1440) (19723 * 1440) [] =
      dateFilteredOf [mondayReading] (19723 * 1440) (19724 * 1440) [] ∧
    aggregationMode (19723 - 19724) = AggregationMode.hourly :=
  ⟨(C4_degenerate [mondayReading] ["B"]).2.2.1 19723 19724 (by decide) (by decide),
   ((C4_degenerate [mondayReading] []).2.2.2 19724 19723 (by decide)).1,
   ((C4_degenerate [mondayReading] []).2.2.2 19724 19723 (by decide)).2⟩

/-- C5: an empty location filter selects all locations: for every data set
and date range the engine output under the empty filter equals the output
under the filter holding every distinct location of the data set. -/
theorem C5_filter_identity (data : List SensorData)
    (startDate endDate : Option Int) :
    filteredAndAggregatedData data startDate endDate (locations data) =
      filteredAndAggregatedData data startDate endDate [] := by
  cases startDate with
  | none => rfl
  | some s =>
    cases endDate with
    | none => rfl
    | some e =>
      unfold filteredAndAggregatedData
      by_cases hd : data.length = 0
      · simp [hd]
      · simp only [hd, if_false]
        have hf : dateFilteredOf data (s * 1440) (e * 1440) (locations data) =
            dateFilteredOf data (s * 1440) (e * 1440) [] := by
          unfold dateFilteredOf
          apply List.filter_congr
          intro d hd2
          have hm : d.location ∈ locations data := by
            unfold locations
            exact List.mem_dedup.mpr (List.mem_map.mpr ⟨d, hd2, rfl⟩)
          simp [hm]
        rw [hf]

/-- C5 witness: the identity instantiated on the end-to-end data set, whose
distinct-location set is `["A"]`. -/
theorem C5_filter_identity_witness :
    filteredAndAggregatedData e2eReadings (some 19723) (some 19724)
        (locations e2eReadings) =
      filteredAndAggregatedData e2eReadings (some 19723) (some 19724) [] :=
  C5_filter_identity e2eReadings (some 19723) (some 19724)

/-- C1 counterexample: on the end-to-end scenario input (readings at
location `A` of 2024-01-01 01:00 and 02:00, range 2024-01-01 to 2024-01-01,
filter `A`) the engine returns the empty sequence, not the two claimed
buckets: both reading instants lie after `new Date(endDate)`, the midnight
that bounds the interval. -/
theorem C1_counterexample :
    filteredAndAggregatedData e2eReadings (some 19723) (some 19723) ["A"] = [] ∧
    (filteredAndAggregatedData e2eReadings (some 19723) (some 19723) ["A"]).map
        (fun r => r.date) ≠ ["2024-01-01 01:00", "2024-01-01 02:00"] := by
  have h : filteredAndAggregatedData e2eReadings (some 19723) (some 19723) ["A"] = [] := by
    unfold filteredAndAggregatedData
    by_cases hd : e2eReadings.length = 0
    · exact absurd hd (by decide)
    · simp only [hd, if_false]
      have hf : dateFilteredOf e2eReadings (19723 * 1440) (19723 * 1440) ["A"] = [] := by
        decide
      rw [hf]
      simp [buildGroups]
  exact ⟨h, by rw [h]; decide⟩

/-- C1 amended: for a date range given in order (start not after end), a
reading is kept iff its full timestamp instant lies in the closed instant
interval from the midnight of `startDate` to the midnight of `endDate`
(not the whole final calendar day) and it passes the location filter;
readings of the end date later than 00:00 are dropped, so the end-to-end
scenario returns the empty sequence. -/
theorem C1_amended (data : List SensorData) (startDay endDay : Int)
    (sel : List String) (d : SensorData) (h : startDay ≤ endDay) :
    d ∈ dateFilteredOf data (startDay * 1440) (endDay * 1440) sel ↔
      d ∈ data ∧ (startDay * 1440 ≤ d.timestamp ∧ d.timestamp ≤ endDay * 1440) ∧
        (sel = [] ∨ d.location ∈ sel) := by
  have h1 : min (startDay * 1440) (endDay * 1440) = startDay * 1440 := by omega
  have h2 : max (startDay * 1440) (endDay * 1440) = endDay * 1440 := by omega
  unfold dateFilteredOf isWithinInterval
  rw [List.mem_filter, h1, h2]
  simp only [Bool.and_eq_true, decide_eq_true_eq, Bool.or_eq_true,
    List.isEmpty_iff, List.elem_iff, and_assoc]

/-- C1 witness: the 01:00 reading is kept once the range ends on the
following day 2024-01-02, instantiated through the amended theorem with its
ordered-range hypothesis discharged. -/
theorem C1_amended_witness :
    e2eReadingA1 ∈ dateFilteredOf e2eReadings (19723 * 1440) (19724 * 1440) [] :=
  (C1_amended e2eReadings 19723 19724 [] e2eReadingA1 (by decide)).mpr
    ⟨by decide, ⟨by decide, by decide⟩, Or.inl rfl⟩

/-- C3 counterexample: under weekly granularity (span 45 days) the reading
taken on Monday 2024-01-01 is bucketed under `2023-12-31`, the Sunday
anchor of date-fns `startOfWeek`, while the ISO week containing it starts
on `2024-01-01` itself. -/
theorem C3_counterexample :
    (filteredAndAggregatedData [mondayReading] (some 19692) (some 19737) []).map
        (fun r => r.date) = ["2023-12-31"] ∧
    formatYMD (isoStartOfWeekDay mondayReading.timestamp) = "2024-01-01" ∧
    ("2023-12-31" : String) ≠ "2024-01-01" := by
  refine ⟨?_, by decide, by decide⟩
  unfold filteredAndAggregatedData
  by_cases hd : ([mondayReading] : List SensorData).length = 0
  · exact absurd hd (by decide)
  · simp only [hd, if_false]
    have hf : dateFilteredOf [mondayReading] (19692 * 1440) (19737 * 1440) [] =
        [mondayReading] := by decide
    rw [hf]
    have hm : aggregationMode (19737 - 19692) = AggregationMode.weekly := by decide
    rw [hm]
    have hb : buildGroups AggregationMode.weekly [mondayReading] =
        [(timeKey AggregationMode.weekly mondayReading.timestamp,
          [(mondayReading.location, addReading initStats mondayReading)])] := rfl
    rw [hb]
    simp only [List.map_cons, List.map_nil, List.mergeSort_singleton, pivotRow]
    decide

/-- C3 amended: weekly bucketing anchors each reading to the start of the
week containing it with weeks beginning on Sunday (the date-fns
`startOfWeek` default), not on the ISO Monday: the weekly bucket key is the
`yyyy-MM-dd` form of the Sunday on or before the timestamp. -/
theorem C3_amended (t : Int) :
    timeKey AggregationMode.weekly t = formatYMD (epochDay (startOfWeek t)) ∧
    epochDay (startOfWeek t) = epochDay t - dayOfWeekOf t ∧
    dayOfWeekOf (startOfWeek t) = 0 ∧
    epochDay (startOfWeek t) ≤ epochDay t ∧
    epochDay t < epochDay (startOfWeek t) + 7 := by
  have he : epochDay (startOfWeek t) = epochDay t - dayOfWeekOf t := by
    unfold startOfWeek dayOfWeekOf epochDay
    omega
  have hb : 0 ≤ dayOfWeekOf t ∧ dayOfWeekOf t < 7 := by
    unfold dayOfWeekOf
    omega
  refine ⟨rfl, he, ?_, by rw [he]; omega, by rw [he]; omega⟩
  have hw : dayOfWeekOf (startOfWeek t) = (epochDay (startOfWeek t) + 4) % 7 := rfl
  rw [hw, he]
  unfold dayOfWeekOf epochDay
  omega

/-- C3 witness: the amended anchoring instantiated at the Monday reading
instant. -/
theorem C3_amended_witness :
    timeKey AggregationMode.weekly mondayReading.timestamp =
        formatYMD (epochDay (startOfWeek mondayReading.timestamp)) ∧
      epochDay (startOfWeek mondayReading.timestamp) =
        epochDay mondayReading.timestamp - dayOfWeekOf mondayReading.timestamp ∧
      dayOfWeekOf (startOfWeek mondayReading.timestamp) = 0 ∧
      epochDay (startOfWeek mondayReading.timestamp) ≤
        epochDay mondayReading.timestamp ∧
      epochDay mondayReading.timestamp <
        epochDay (startOfWeek mondayReading.timestamp) + 7 :=
  C3_amended mondayReading.timestamp

/-- C9: the output bucket sequence is non-decreasing by `bucketKey` under
lexicographic string comparison, for every input: the final
`sort by localeCompare` establishes it (the zero-padded left-to-right
significant key formats make this the chronological order). -/
theorem C9_ordering (data : List SensorData) (startDate endDate : Option Int)
    (sel : List String) :
    (filteredAndAggregatedData data startDate endDate sel).Pairwise
      (fun a b => strLe a.date b.date = true) := by
  cases startDate with
  | none => cases endDate <;> exact List.Pairwise.nil
  | some s =>
    cases endDate with
    | none => exact List.Pairwise.nil
    | some e =>
      unfold filteredAndAggregatedData
      by_cases hd : data.length = 0
      · simp [hd]
      · simp only [hd, if_false]
        exact List.sorted_mergeSort
          (fun a b c => strLe_trans a.date b.date c.date)
          (fun a b => by rcases strLe_total a.date b.date with h | h <;> simp [h])
          _

/-- C9 witness: the sortedness instantiated on the mean scenario input. -/
theorem C9_ordering_witness :
    (filteredAndAggregatedData meanReadings (some 19723) (some 19724)
        ["A"]).Pairwise (fun a b => strLe a.date b.date = true) :=
  C9_ordering meanReadings (some 19723) (some 19724) ["A"]

/-- C10: every `(bucketKey, location)` accumulator that the pivot step can
see holds at least one reading, so the `sum / count` divisions divide by a
non-zero count (and, numbers being exact rationals here, every emitted
value is a finite rational). -/
theorem C10_count_pos (mode : AggregationMode) (ds : List SensorData)
    (tk : String) (locs : List (String × Stats)) (loc : String) (st : Stats)
    (h1 : (tk, locs) ∈ buildGroups mode ds) (h2 : (loc, st) ∈ locs) :
    1 ≤ st.count ∧ ((st.count : ℚ) ≠ 0) := by
  have hl := lookup2_of_mem_buildGroups mode ds tk locs loc st h1 h2
  have hc := lookup2_buildGroups_eq_some mode ds tk loc st hl
  have hpos : 0 < (groupReadings mode ds tk loc).length :=
    List.length_pos.mpr hc.1
  constructor
  · rw [hc.2.2.2.2]
    omega
  · rw [hc.2.2.2.2]
    exact Nat.cast_ne_zero.mpr (by omega)

/-- C10 witness: the group built from a single reading has count 1,
instantiated through the theorem. -/
theorem C10_count_pos_witness :
    1 ≤ (addReading initStats mondayReading).count ∧
      (((addReading initStats mondayReading).count : ℚ) ≠ 0) :=
  C10_count_pos AggregationMode.hourly [mondayReading]
    (timeKey AggregationMode.hourly mondayReading.timestamp)
    [(mondayReading.location, addReading initStats mondayReading)]
    mondayReading.location (addReading initStats mondayReading)
    (List.mem_singleton.mpr rfl) (List.mem_singleton.mpr rfl)

/-- C8: per `(bucketKey, location)` group, the emitted `location_metric`
values are exactly `Number((sum / count).toFixed(2))` where the sums run
over precisely the group's readings and `count` is their number — the
rounded arithmetic mean of each metric; and on the concrete bucket holding
moisture readings 10, 20, 30 at one location the emitted `A_moisture`
equals 20. -/
theorem C8_mean :
    (∀ (data : List SensorData) (startDay endDay : Int) (sel : List String)
      (row : BucketRow),
      row ∈ filteredAndAggregatedData data (some startDay) (some endDay) sel →
      ∃ locs : List (String × Stats),
        row.values = locs.flatMap (fun p =>
          [(p.1 ++ "_moisture", round2 (p.2.moisture / (p.2.count : ℚ))),
           (p.1 ++ "_ec", round2 (p.2.ec / (p.2.count : ℚ))),
           (p.1 ++ "_temperature", round2 (p.2.temperature / (p.2.count : ℚ)))]) ∧
        ∀ p ∈ locs,
          groupReadings (aggregationMode (endDay - startDay))
              (dateFilteredOf data (startDay * 1440) (endDay * 1440) sel)
              row.date p.1 ≠ [] ∧
          p.2.moisture = ((groupReadings (aggregationMode (endDay - startDay))
              (dateFilteredOf data (startDay * 1440) (endDay * 1440) sel)
              row.date p.1).map SensorData.moisture).sum ∧
          p.2.ec = ((groupReadings (aggregationMode (endDay - startDay))
              (dateFilteredOf data (startDay * 1440) (endDay * 1440) sel)
              row.date p.1).map SensorData.ec).sum ∧
          p.2.temperature = ((groupReadings (aggregationMode (endDay - startDay))
              (dateFilteredOf data (startDay * 1440) (endDay * 1440) sel)
              row.date p.1).map SensorData.temperature).sum ∧
          p.2.count = (groupReadings (aggregationMode (endDay - startDay))
              (dateFilteredOf data (startDay * 1440) (endDay * 1440) sel)
              row.date p.1).length) ∧
    (filteredAndAggregatedData meanReadings (some 19723) (some 19724)
        ["A"]).map (fun r => r.values) =
      [[("A_moisture", (20 : ℚ)), ("A_ec", 0), ("A_temperature", 0)]] := by
  constructor
  · intro data startDay endDay sel row h
    obtain ⟨locs, hmem, hrow⟩ :=
      mem_output_decompose data startDay endDay sel row h
    refine ⟨locs, ?_, ?_⟩
    · exact congrArg BucketRow.values hrow
    · intro p hp
      obtain ⟨l, st⟩ := p
      have hl := lookup2_of_mem_buildGroups
        (aggregationMode (endDay - startDay))
        (dateFilteredOf data (startDay * 1440) (endDay * 1440) sel)
        row.date locs l st hmem hp
      exact lookup2_buildGroups_eq_some _ _ _ _ _ hl
  · unfold filteredAndAggregatedData
    by_cases hd : meanReadings.length = 0
    · exact absurd hd (by decide)
    · simp only [hd, if_false]
      have hf : dateFilteredOf meanReadings (19723 * 1440) (19724 * 1440)
          ["A"] = meanReadings := by decide
      rw [hf]
      have hm : aggregationMode (19724 - 19723) = AggregationMode.hourly := by
        decide
      rw [hm]
      have hb : buildGroups AggregationMode.hourly meanReadings =
          [(timeKey AggregationMode.hourly (19723 * 1440 + 60),
            [("A", meanStats)])] := rfl
      rw [hb]
      simp only [List.map_cons, List.map_nil, List.mergeSort_singleton,
        pivotRow, List.flatMap_cons, List.flatMap_nil, List.append_nil]
      have h1 : meanStats.moisture = 60 := by
        norm_num [meanStats, addReading, initStats, meanR1, meanR2, meanR3]
      have h2 : meanStats.ec = 0 := by
        norm_num [meanStats, addReading, initStats, meanR1, meanR2, meanR3]
      have h3 : meanStats.temperature = 0 := by
        norm_num [meanStats, addReading, initStats, meanR1, meanR2, meanR3]
      have h4 : meanStats.count = 3 := by
        norm_num [meanStats, addReading, initStats, meanR1, meanR2, meanR3]
      rw [h1, h2, h3, h4]
      have hr1 : round2 ((60 : ℚ) / ((3 : Nat) : ℚ)) = 20 := by
        norm_num [round2, jsRound]
      have hr2 : round2 ((0 : ℚ) / ((3 : Nat) : ℚ)) = 0 := by
        norm_num [round2, jsRound]
      rw [hr1, hr2]
      decide

/-- C8 witness: the general mean characterization applied to the single
output row of the `[10, 20, 30]` scenario, whose membership hypothesis is
discharged by computation. -/
theorem C8_mean_witness :
    ∃ locs : List (String × Stats),
      meanRow.values = locs.flatMap (fun p =>
        [(p.1 ++ "_moisture", round2 (p.2.moisture / (p.2.count : ℚ))),
         (p.1 ++ "_ec", round2 (p.2.ec / (p.2.count : ℚ))),
         (p.1 ++ "_temperature", round2 (p.2.temperature / (p.2.count : ℚ)))]) ∧
      ∀ p ∈ locs,
        groupReadings (aggregationMode (19724 - 19723))
            (dateFilteredOf meanReadings (19723 * 1440) (19724 * 1440) ["A"])
            meanRow.date p.1 ≠ [] ∧
        p.2.moisture = ((groupReadings (aggregationMode (19724 - 19723))
            (dateFilteredOf meanReadings (19723 * 1440) (19724 * 1440) ["A"])
            meanRow.date p.1).map SensorData.moisture).sum ∧
        p.2.ec = ((groupReadings (aggregationMode (19724 - 19723))
            (dateFilteredOf meanReadings (19723 * 1440) (19724 * 1440) ["A"])
            meanRow.date p.1).map SensorData.ec).sum ∧
        p.2.temperature = ((groupReadings (aggregationMode (19724 - 19723))
            (dateFilteredOf meanReadings (19723 * 1440) (19724 * 1440) ["A"])
            meanRow.date p.1).map SensorData.temperature).sum ∧
        p.2.count = (groupReadings (aggregationMode (19724 - 19723))
            (dateFilteredOf meanReadings (19723 * 1440) (19724 * 1440) ["A"])
            meanRow.date p.1).length :=
  C8_mean.1 meanReadings 19723 19724 ["A"] meanRow
    (List.mem_mergeSort.mpr (List.mem_singleton.mpr rfl))
